import Mathlib

/-!
Verification of the SPSC circular buffer (src/circular_buffer.h) against its
natural-language specification.

The C++ state is a `CircularBuffer<T>` object with fields
  size : int64_t        -- queue_size + 1 (one reserved slot)
  data : vector<T>      -- allocated with queue_size + 1 default slots
  head, tail : atomic<int64_t>
  has_producer, has_consumer : atomic_bool
and two views, `CircularBufferProducer` (filled, size, push) and
`CircularBufferConsumer` (empty, size, front, pop).  The embedding below is a
sequential shallow embedding: atomics become plain fields, each method a pure
function on the state.  `int64_t` is modelled by `Int` (no value here ever
approaches 2^63, so wrapping is irrelevant); the C++ `%` operator, which
truncates toward zero, is `Int.tmod`; `vector<T>` is `List T` whose slots are
default-initialised via `Inhabited T`; `front`'s NULL return is `Option.none`.
-/

set_option maxHeartbeats 1000000

namespace CircularBufferSpec

/-- State of `CircularBuffer<T>`: mirror of the private fields of the C++
class.  `size` is the slot count of `data` (queue_size + 1). -/
structure CircularBuffer (T : Type) where
  size : Int
  data : List T
  head : Int
  tail : Int
  has_producer : Bool
  has_consumer : Bool

/-- Embedding of the constructor `CircularBuffer(int64_t queue_size)`:
member initialisers `size(queue_size + 1)`, `data(queue_size + 1)` (that many
default-initialised slots), `head(0)`, `tail(0)`, `has_producer(false)`,
`has_consumer(false)`.  The C++ constructor performs no check on
`queue_size`. -/
def CircularBuffer.new (T : Type) [Inhabited T] (queue_size : Int) :
    CircularBuffer T :=
  { size := queue_size + 1
    data := List.replicate (queue_size + 1).toNat default
    head := 0
    tail := 0
    has_producer := false
    has_consumer := false }

namespace CircularBufferProducer

/-- Embedding of `CircularBufferProducer::size()`: loads head and tail, then
`if (tail >= head) return tail - head; return tail + buf->size - head;`. -/
def size {T : Type} (buf : CircularBuffer T) : Int :=
  let head := buf.head
  let tail := buf.tail
  if tail ≥ head then tail - head else tail + buf.size - head

/-- Embedding of `CircularBufferProducer::filled()`:
`size() + 1 == buf->size`. -/
def filled {T : Type} (buf : CircularBuffer T) : Bool :=
  size buf + 1 == buf.size

/-- Embedding of `CircularBufferProducer::push(T item)`: loads tail, stores
the item at `data[tail]`, then stores `(tail + 1) % buf->size` into tail. -/
def push {T : Type} (buf : CircularBuffer T) (item : T) : CircularBuffer T :=
  let tail := buf.tail
  { buf with
    data := buf.data.set tail.toNat item
    tail := (tail + 1).tmod buf.size }

end CircularBufferProducer

namespace CircularBufferConsumer

/-- Embedding of `CircularBufferConsumer::size()`: same branch computation as
the producer's size (the two differ only in atomic memory orderings). -/
def size {T : Type} (buf : CircularBuffer T) : Int :=
  let head := buf.head
  let tail := buf.tail
  if tail ≥ head then tail - head else tail + buf.size - head

/-- Embedding of `CircularBufferConsumer::empty()`: `size() == 0`. -/
def empty {T : Type} (buf : CircularBuffer T) : Bool :=
  size buf == 0

/-- Embedding of `CircularBufferConsumer::front()`: loads head and tail;
`if (head == tail) return NULL; return &buf->data[head];`.  The returned
pointer (NULL or a reference to the slot) becomes an `Option T`. -/
def front {T : Type} [Inhabited T] (buf : CircularBuffer T) : Option T :=
  if buf.head == buf.tail then none
  else some (buf.data.getD buf.head.toNat default)

/-- Embedding of `CircularBufferConsumer::pop()`: loads head, moves
`data[head]` out as the return value, stores `(head + 1) % buf->size` into
head.  Returns the popped value together with the updated state (the move is
modelled as a copy, which is exact for value types such as `int`). -/
def pop {T : Type} [Inhabited T] (buf : CircularBuffer T) :
    T × CircularBuffer T :=
  let head := buf.head
  let ret := buf.data.getD head.toNat default
  (ret, { buf with head := (head + 1).tmod buf.size })

end CircularBufferConsumer

/-! ## Derived notions used by the claims -/

/-- States reachable from a fresh buffer of capacity `C` by pushes performed
only when the buffer is not filled and pops performed only when it is not
empty — the documented caller contract (check `filled()` before `push`,
`empty()` before `pop`). -/
inductive Reachable {T : Type} [Inhabited T] (C : Int) : CircularBuffer T → Prop where
  | new : Reachable C (CircularBuffer.new T C)
  | push (b : CircularBuffer T) (x : T) : Reachable C b →
      CircularBufferProducer.filled b = false →
      Reachable C (CircularBufferProducer.push b x)
  | pop (b : CircularBuffer T) : Reachable C b →
      CircularBufferConsumer.empty b = false →
      Reachable C (CircularBufferConsumer.pop b).2

/-- Basic well-formedness of a buffer of capacity `C`: the slot count is
`C + 1`, both cursors lie in `[0, C]`, and the backing storage really has
`C + 1` slots. -/
def Inv {T : Type} (C : Int) (b : CircularBuffer T) : Prop :=
  b.size = C + 1 ∧ 0 ≤ b.head ∧ b.head ≤ C ∧ 0 ≤ b.tail ∧ b.tail ≤ C ∧
    b.data.length = (C + 1).toNat

/-- Logical FIFO contents of the buffer: the slots from `head` (inclusive) to
`tail` (exclusive), in cursor order, wrapping past the end of `data`. -/
def contents {T : Type} (b : CircularBuffer T) : List T :=
  if b.tail ≥ b.head then
    (b.data.drop b.head.toNat).take (b.tail - b.head).toNat
  else
    b.data.drop b.head.toNat ++ b.data.take b.tail.toNat

/-- Iterated push (`foldl`); used to state fill-to-capacity. -/
def pushAll {T : Type} (b : CircularBuffer T) (xs : List T) : CircularBuffer T :=
  xs.foldl CircularBufferProducer.push b

/-- One push immediately followed by one pop, iterated over a list of items;
returns the popped values in order together with the final state.  This is the
wraparound test pattern (push k; pop) repeated N times. -/
def pushPopCycle {T : Type} [Inhabited T] (b : CircularBuffer T) :
    List T → List T × CircularBuffer T
  | [] => ([], b)
  | x :: rest =>
    let b1 := CircularBufferProducer.push b x
    let p := CircularBufferConsumer.pop b1
    let r := pushPopCycle p.2 rest
    (p.1 :: r.1, r.2)

/-! ## Helper lemmas -/

/-- Every state reachable under the caller contract is well formed: the cursor
updates `(c + 1) % size` keep both cursors in `[0, C]` and never change the
slot count. -/
lemma reachable_inv {T : Type} [Inhabited T] {C : Int} (hC : 1 ≤ C)
    {b : CircularBuffer T} (hb : Reachable C b) : Inv C b := by
  induction hb with
  | new =>
    refine ⟨rfl, ?_, ?_, ?_, ?_, ?_⟩ <;> simp [CircularBuffer.new] <;> omega
  | push b x _ _ ih =>
    obtain ⟨hs, hh0, hh1, ht0, _, hd⟩ := ih
    refine ⟨hs, hh0, hh1, ?_, ?_, ?_⟩
    · exact Int.tmod_nonneg _ (by omega)
    · have := Int.tmod_lt_of_pos (b.tail + 1) (b := b.size) (by omega)
      simp only [CircularBufferProducer.push]
      omega
    · simpa [CircularBufferProducer.push] using hd
  | pop b _ _ ih =>
    obtain ⟨hs, _, _, ht0, ht1, hd⟩ := ih
    refine ⟨hs, ?_, ?_, ht0, ht1, hd⟩
    · exact Int.tmod_nonneg _ (by omega)
    · have := Int.tmod_lt_of_pos (b.head + 1) (b := b.size) (by omega)
      simp only [CircularBufferConsumer.pop]
      omega

/-- On a well-formed state the two-branch occupancy computation coincides with
the modular formula `(tail - head + (C+1)) mod (C+1)` and lies in
`[0, C]`. -/
lemma size_eq_emod {T : Type} {C : Int} {b : CircularBuffer T}
    (h : Inv C b) :
    CircularBufferConsumer.size b = (b.tail - b.head + (C + 1)) % (C + 1) ∧
      0 ≤ CircularBufferConsumer.size b ∧ CircularBufferConsumer.size b ≤ C := by
  obtain ⟨hs, hh0, hh1, ht0, ht1, _⟩ := h
  unfold CircularBufferConsumer.size
  by_cases hc : b.tail ≥ b.head
  · have h1 : (b.tail - b.head + (C + 1)) % (C + 1) = (b.tail - b.head) % (C + 1) :=
      Int.add_emod_self
    have h2 : (b.tail - b.head) % (C + 1) = b.tail - b.head :=
      Int.emod_eq_of_lt (by omega) (by omega)
    simp only [hc, if_pos]
    omega
  · have h2 : (b.tail - b.head + (C + 1)) % (C + 1) = b.tail - b.head + (C + 1) :=
      Int.emod_eq_of_lt (by omega) (by omega)
    simp only [hc, if_neg, not_false_iff]
    omega

/-- Producer and consumer occupancy are computed identically. -/
lemma producer_size_eq {T : Type} (b : CircularBuffer T) :
    CircularBufferProducer.size b = CircularBufferConsumer.size b := rfl

/-- On a well-formed state, `empty()` returns false exactly when the cursors
differ. -/
lemma empty_false_iff {T : Type} {C : Int} {b : CircularBuffer T}
    (h : Inv C b) :
    CircularBufferConsumer.empty b = false ↔ b.head ≠ b.tail := by
  obtain ⟨hs, hh0, hh1, ht0, ht1, _⟩ := h
  unfold CircularBufferConsumer.empty CircularBufferConsumer.size
  by_cases hc : b.tail ≥ b.head
  · simp only [hc, if_pos, beq_eq_false_iff_ne, ne_eq, sub_eq_zero]
    omega
  · simp only [hc, if_neg, not_false_iff, beq_eq_false_iff_ne, ne_eq]
    constructor
    · intro _; omega
    · intro _; omega

/-- On a well-formed non-empty state the first logical content slot is
`data[head]`. -/
lemma contents_zero {T : Type} {C : Int} {b : CircularBuffer T} (h : Inv C b)
    (hne : b.head ≠ b.tail) :
    (contents b)[0]? = b.data[b.head.toNat]? := by
  obtain ⟨hs, hh0, hh1, ht0, ht1, hd⟩ := h
  unfold contents
  by_cases hc : b.tail ≥ b.head
  · have hk : 0 < (b.tail - b.head).toNat := by omega
    simp only [hc, if_pos, List.getElem?_take, hk, if_pos, List.getElem?_drop,
      Nat.add_zero]
  · have hlen : 0 < (b.data.drop b.head.toNat).length := by
      simp only [List.length_drop]
      omega
    simp only [hc, if_neg, not_false_iff, List.getElem?_append, hlen, if_pos,
      List.getElem?_drop, Nat.add_zero]

/-- Any value returned by `front()` is one of the logical contents of the
buffer. -/
lemma front_mem_contents {T : Type} [Inhabited T] {C : Int} {b : CircularBuffer T}
    (h : Inv C b) {y : T} (hf : CircularBufferConsumer.front b = some y) :
    y ∈ contents b := by
  have hhd : b.data.length = (C + 1).toNat := h.2.2.2.2.2
  have hh0 : 0 ≤ b.head := h.2.1
  have hh1 : b.head ≤ C := h.2.2.1
  unfold CircularBufferConsumer.front at hf
  by_cases hne : b.head = b.tail
  · simp [hne] at hf
  · have hb : (b.head == b.tail) = false := by simpa using hne
    simp only [hb, Bool.false_eq_true, if_neg, not_false_iff,
      Option.some.injEq] at hf
    have hlt : b.head.toNat < b.data.length := by omega
    have hget : b.data[b.head.toNat]? = some b.data[b.head.toNat] :=
      List.getElem?_eq_getElem hlt
    have hy : y = b.data[b.head.toNat] := by
      rw [List.getD_eq_getElem?_getD, hget] at hf
      simpa using hf.symm
    have hzero : (contents b)[0]? = some y := by
      rw [contents_zero ⟨h.1, hh0, hh1, h.2.2.2.1, h.2.2.2.2.1, hhd⟩ hne, hget, hy]
    exact List.getElem?_mem hzero

/-- Field equation for push: the head cursor is untouched. -/
lemma push_head {T : Type} (b : CircularBuffer T) (x : T) :
    (CircularBufferProducer.push b x).head = b.head := rfl

/-- Field equation for push: the tail cursor advances modulo the slot
count. -/
lemma push_tail {T : Type} (b : CircularBuffer T) (x : T) :
    (CircularBufferProducer.push b x).tail = (b.tail + 1).tmod b.size := rfl

/-- Field equation for push: the slot count is untouched. -/
lemma push_size_field {T : Type} (b : CircularBuffer T) (x : T) :
    (CircularBufferProducer.push b x).size = b.size := rfl

/-- Field equation for push: the storage becomes `data.set tail item`. -/
lemma push_data {T : Type} (b : CircularBuffer T) (x : T) :
    (CircularBufferProducer.push b x).data = b.data.set b.tail.toNat x := rfl

/-- Field equation for pop: the head cursor advances modulo the slot
count. -/
lemma pop_head {T : Type} [Inhabited T] (b : CircularBuffer T) :
    (CircularBufferConsumer.pop b).2.head = (b.head + 1).tmod b.size := rfl

/-- Field equation for pop: the tail cursor is untouched. -/
lemma pop_tail {T : Type} [Inhabited T] (b : CircularBuffer T) :
    (CircularBufferConsumer.pop b).2.tail = b.tail := rfl

/-- Field equation for pop: the slot count is untouched. -/
lemma pop_size_field {T : Type} [Inhabited T] (b : CircularBuffer T) :
    (CircularBufferConsumer.pop b).2.size = b.size := rfl

/-- Field equation for pop: the storage is untouched (a move of a value
type is a copy). -/
lemma pop_data {T : Type} [Inhabited T] (b : CircularBuffer T) :
    (CircularBufferConsumer.pop b).2.data = b.data := rfl

/-- Field equation for pop: the returned value is the slot at the head
cursor. -/
lemma pop_fst {T : Type} [Inhabited T] (b : CircularBuffer T) :
    (CircularBufferConsumer.pop b).1 = b.data.getD b.head.toNat default := rfl

/-- Occupancy evaluation, branch `tail >= head`. -/
lemma size_formula_ge {T : Type} {b : CircularBuffer T} (hge : b.tail ≥ b.head) :
    CircularBufferConsumer.size b = b.tail - b.head := by
  unfold CircularBufferConsumer.size
  exact if_pos hge

/-- Occupancy evaluation, branch `tail < head`. -/
lemma size_formula_lt {T : Type} {b : CircularBuffer T} (hlt : ¬ b.tail ≥ b.head) :
    CircularBufferConsumer.size b = b.tail + b.size - b.head := by
  unfold CircularBufferConsumer.size
  exact if_neg hlt

/-- Claim C3: in every reachable state the cursors lie in `[0, C]`, and the
branching occupancy computation equals `(tail - head + (C+1)) mod (C+1)`,
a value in `[0, C]`; producer and consumer occupancy agree. -/
theorem cursor_occupancy_invariant {C : Int} (hC : 1 ≤ C)
    {b : CircularBuffer Int} (hb : Reachable C b) :
    (0 ≤ b.head ∧ b.head ≤ C) ∧ (0 ≤ b.tail ∧ b.tail ≤ C) ∧
    CircularBufferConsumer.size b = (b.tail - b.head + (C + 1)) % (C + 1) ∧
    CircularBufferProducer.size b = (b.tail - b.head + (C + 1)) % (C + 1) ∧
    0 ≤ CircularBufferConsumer.size b ∧ CircularBufferConsumer.size b ≤ C := by
  have hinv := reachable_inv hC hb
  have hsz := size_eq_emod hinv
  obtain ⟨hs, hh0, hh1, ht0, ht1, _⟩ := hinv
  exact ⟨⟨hh0, hh1⟩, ⟨ht0, ht1⟩, hsz.1, by rw [producer_size_eq]; exact hsz.1,
    hsz.2.1, hsz.2.2⟩

/-- Witness for C3 at `C = 2` after one push. -/
theorem cursor_occupancy_invariant_witness :
    CircularBufferConsumer.size
        (CircularBufferProducer.push (CircularBuffer.new Int 2) 5) =
      ((CircularBufferProducer.push (CircularBuffer.new Int 2) 5).tail -
        (CircularBufferProducer.push (CircularBuffer.new Int 2) 5).head + 3) % 3 := by
  have h := cursor_occupancy_invariant (C := 2) (by decide)
    (Reachable.push _ 5 Reachable.new (by decide))
  exact h.2.2.1

/-- Claim C10: in every reachable state the backing storage has `C + 1`
slots and every index the code uses to access it — `data[tail]` in push,
`data[head]` in front and pop — is in bounds. -/
theorem storage_access_in_bounds {C : Int} (hC : 1 ≤ C)
    {b : CircularBuffer Int} (hb : Reachable C b) :
    b.data.length = (C + 1).toNat ∧
    b.tail.toNat < b.data.length ∧ b.head.toNat < b.data.length ∧
    0 ≤ b.tail ∧ b.tail ≤ C ∧ 0 ≤ b.head ∧ b.head ≤ C := by
  obtain ⟨hs, hh0, hh1, ht0, ht1, hd⟩ := reachable_inv hC hb
  refine ⟨hd, ?_, ?_, ht0, ht1, hh0, hh1⟩ <;> omega

/-- Witness for C10 at `C = 2` after one push and one pop. -/
theorem storage_access_in_bounds_witness :
    (CircularBufferConsumer.pop
        (CircularBufferProducer.push (CircularBuffer.new Int 2) 5)).2.head.toNat <
      (CircularBufferConsumer.pop
        (CircularBufferProducer.push (CircularBuffer.new Int 2) 5)).2.data.length := by
  have h := storage_access_in_bounds (C := 2) (by decide)
    (Reachable.pop _ (Reachable.push _ 5 Reachable.new (by decide)) (by decide))
  exact h.2.2.1

/-- Main inductive step for the wraparound FIFO claim: from any state with
equal in-range cursors, a push immediately followed by a pop returns exactly
the pushed item and restores equal in-range cursors. -/
lemma pushPopCycle_fifo {T : Type} [Inhabited T] (xs : List T) :
    ∀ b : CircularBuffer T, b.head = b.tail → 0 ≤ b.head → b.head < b.size →
      b.data.length = b.size.toNat → (pushPopCycle b xs).1 = xs := by
  induction xs with
  | nil =>
    intro b _ _ _ _
    rfl
  | cons x rest ih =>
    intro b hht h0 hlt hlen
    have hidx : b.head.toNat < b.data.length := by omega
    have hpop1 : (CircularBufferConsumer.pop (CircularBufferProducer.push b x)).1 = x := by
      rw [pop_fst, push_data, push_head, ← hht, List.getD_eq_getElem?_getD,
        List.getElem?_set_self hidx]
      rfl
    have hstep : (pushPopCycle b (x :: rest)).1
        = (CircularBufferConsumer.pop (CircularBufferProducer.push b x)).1 ::
          (pushPopCycle (CircularBufferConsumer.pop (CircularBufferProducer.push b x)).2 rest).1 := rfl
    rw [hstep, hpop1]
    congr 1
    apply ih
    · rw [pop_head, pop_tail, push_head, push_tail, push_size_field, hht]
    · rw [pop_head, push_head, push_size_field]
      exact Int.tmod_nonneg _ (by omega)
    · rw [pop_head, pop_size_field, push_head, push_size_field]
      exact Int.tmod_lt_of_pos _ (by omega)
    · rw [pop_data, pop_size_field, push_data, push_size_field,
        List.length_set, hlen]

/-- Claim C1: FIFO order under wraparound — for every capacity `C ≥ 1` and
every sequence of items (arbitrarily longer than `C`), repeatedly pushing one
item then popping one item on a fresh buffer yields the k-th pushed value as
the k-th popped value, despite the cursors wrapping modulo `C + 1`. -/
theorem fifo_cycle {C : Int} (hC : 1 ≤ C) (xs : List Int) :
    (pushPopCycle (CircularBuffer.new Int C) xs).1 = xs ∧
    ∀ k : Nat, (pushPopCycle (CircularBuffer.new Int C) xs).1[k]? = xs[k]? := by
  have h := pushPopCycle_fifo xs (CircularBuffer.new Int C) rfl (le_refl 0)
    (by simp only [CircularBuffer.new]; omega)
    (by simp [CircularBuffer.new])
  exact ⟨h, fun k => by rw [h]⟩

/-- Witness for C1: capacity 1 with three items forces two wraparounds. -/
theorem fifo_cycle_witness :
    (1 : Int) ≤ 1 ∧ (pushPopCycle (CircularBuffer.new Int 1) [3, 1, 2]).1 = [3, 1, 2] :=
  ⟨by decide, (fifo_cycle (by decide) [3, 1, 2]).1⟩

/-- Iterated push from a state with room: the tail advances by the number of
items without wrapping, and head, slot count and storage length are
unchanged. -/
lemma pushAll_spec {T : Type} (xs : List T) :
    ∀ b : CircularBuffer T, 0 ≤ b.tail → b.tail + xs.length ≤ b.size - 1 →
      (pushAll b xs).tail = b.tail + xs.length ∧
      (pushAll b xs).head = b.head ∧
      (pushAll b xs).size = b.size ∧
      (pushAll b xs).data.length = b.data.length := by
  induction xs with
  | nil =>
    intro b h0 h1
    exact ⟨by simp [pushAll], rfl, rfl, rfl⟩
  | cons x rest ih =>
    intro b h0 h1
    simp only [List.length_cons] at h1
    have hcast : ((rest.length + 1 : Nat) : Int) = (rest.length : Int) + 1 := by
      push_cast
      ring
    rw [hcast] at h1
    have htail : (CircularBufferProducer.push b x).tail = b.tail + 1 := by
      rw [push_tail]
      exact Int.tmod_eq_of_lt (by omega) (by omega)
    have hstep : pushAll b (x :: rest) = pushAll (CircularBufferProducer.push b x) rest := rfl
    have hih := ih (CircularBufferProducer.push b x)
      (by rw [htail]; omega)
      (by rw [htail, push_size_field]; omega)
    rw [hstep]
    refine ⟨?_, ?_, ?_, ?_⟩
    · rw [hih.1, htail, List.length_cons, hcast]
      ring
    · rw [hih.2.1, push_head]
    · rw [hih.2.2.1, push_size_field]
    · rw [hih.2.2.2, push_data, List.length_set]

/-- Claim C4: pushing exactly `C` items into a fresh buffer of capacity `C`
makes `filled()` true and both occupancy queries return `C`; popping one item
then makes `filled()` false and occupancy `C - 1`. -/
theorem fill_to_capacity {C : Int} (hC : 1 ≤ C) (xs : List Int)
    (hlen : (xs.length : Int) = C) :
    CircularBufferProducer.filled (pushAll (CircularBuffer.new Int C) xs) = true ∧
    CircularBufferConsumer.size (pushAll (CircularBuffer.new Int C) xs) = C ∧
    CircularBufferProducer.size (pushAll (CircularBuffer.new Int C) xs) = C ∧
    CircularBufferProducer.filled
      (CircularBufferConsumer.pop (pushAll (CircularBuffer.new Int C) xs)).2 = false ∧
    CircularBufferConsumer.size
      (CircularBufferConsumer.pop (pushAll (CircularBuffer.new Int C) xs)).2 = C - 1 := by
  have hb := pushAll_spec xs (CircularBuffer.new Int C) (le_refl 0)
    (by simp only [CircularBuffer.new]; omega)
  have ht : (pushAll (CircularBuffer.new Int C) xs).tail = C := by
    rw [hb.1]
    simp only [CircularBuffer.new]
    omega
  have hh : (pushAll (CircularBuffer.new Int C) xs).head = 0 := hb.2.1
  have hs : (pushAll (CircularBuffer.new Int C) xs).size = C + 1 := hb.2.2.1
  have hsz : CircularBufferConsumer.size (pushAll (CircularBuffer.new Int C) xs) = C := by
    rw [size_formula_ge (by rw [ht, hh]; omega), ht, hh]
    ring
  have hph : (CircularBufferConsumer.pop (pushAll (CircularBuffer.new Int C) xs)).2.head = 1 := by
    rw [pop_head, hh, hs]
    exact Int.tmod_eq_of_lt (by omega) (by omega)
  have hpt : (CircularBufferConsumer.pop (pushAll (CircularBuffer.new Int C) xs)).2.tail = C := by
    rw [pop_tail, ht]
  have hsz' : CircularBufferConsumer.size
      (CircularBufferConsumer.pop (pushAll (CircularBuffer.new Int C) xs)).2 = C - 1 := by
    rw [size_formula_ge (by rw [hph, hpt]; omega), hph, hpt]
  refine ⟨?_, hsz, ?_, ?_, hsz'⟩
  · unfold CircularBufferProducer.filled
    rw [producer_size_eq, hsz, hs]
    simp
  · rw [producer_size_eq]
    exact hsz
  · unfold CircularBufferProducer.filled
    rw [producer_size_eq, hsz', pop_size_field, hs]
    simp only [beq_eq_false_iff_ne, ne_eq]
    omega

/-- Witness for C4 at `C = 3`. -/
theorem fill_to_capacity_witness :
    CircularBufferProducer.filled (pushAll (CircularBuffer.new Int 3) [4, 5, 6]) = true ∧
    CircularBufferConsumer.size
      (CircularBufferConsumer.pop (pushAll (CircularBuffer.new Int 3) [4, 5, 6])).2 = 2 :=
  ⟨(fill_to_capacity (by decide) [4, 5, 6] (by decide)).1,
   (fill_to_capacity (by decide) [4, 5, 6] (by decide)).2.2.2.2⟩

/-- Claim C5: after one push of `x` on a fresh buffer of capacity `C ≥ 1`,
`empty()` is false, both occupancy queries return 1, `filled()` is false when
`C > 1`, and `front()` returns `x` without consuming it (`front` reads the
state without modifying it, so occupancy is still 1 afterwards). -/
theorem single_push {C : Int} (hC : 1 ≤ C) (x : Int) :
    CircularBufferConsumer.empty (CircularBufferProducer.push (CircularBuffer.new Int C) x) = false ∧
    CircularBufferConsumer.size (CircularBufferProducer.push (CircularBuffer.new Int C) x) = 1 ∧
    CircularBufferProducer.size (CircularBufferProducer.push (CircularBuffer.new Int C) x) = 1 ∧
    (1 < C → CircularBufferProducer.filled (CircularBufferProducer.push (CircularBuffer.new Int C) x) = false) ∧
    CircularBufferConsumer.front (CircularBufferProducer.push (CircularBuffer.new Int C) x) = some x := by
  have hh : (CircularBufferProducer.push (CircularBuffer.new Int C) x).head = 0 := rfl
  have ht : (CircularBufferProducer.push (CircularBuffer.new Int C) x).tail = 1 := by
    rw [push_tail]
    show ((0 : Int) + 1).tmod (C + 1) = 1
    exact Int.tmod_eq_of_lt (by omega) (by omega)
  have hs : (CircularBufferProducer.push (CircularBuffer.new Int C) x).size = C + 1 := rfl
  have hsz : CircularBufferConsumer.size (CircularBufferProducer.push (CircularBuffer.new Int C) x) = 1 := by
    rw [size_formula_ge (by rw [ht, hh]; omega), ht, hh]
    ring
  refine ⟨?_, hsz, by rw [producer_size_eq]; exact hsz, ?_, ?_⟩
  · unfold CircularBufferConsumer.empty
    rw [hsz]
    rfl
  · intro h1C
    unfold CircularBufferProducer.filled
    rw [producer_size_eq, hsz, hs]
    simp only [beq_eq_false_iff_ne, ne_eq]
    omega
  · unfold CircularBufferConsumer.front
    rw [if_neg (by rw [hh, ht]; decide)]
    rw [hh, push_data]
    show some ((List.replicate (C + 1).toNat default).set ((0 : Int)).toNat x |>.getD (0 : Int).toNat default) = some x
    have hlen : (0 : Int).toNat < ((List.replicate (C + 1).toNat (default : Int))).length := by
      simp only [List.length_replicate]
      omega
    rw [List.getD_eq_getElem?_getD, List.getElem?_set_self hlen]
    rfl

/-- Witness for C5 at `C = 2`, `x = 7`. -/
theorem single_push_witness :
    CircularBufferProducer.filled (CircularBufferProducer.push (CircularBuffer.new Int 2) 7) = false ∧
    CircularBufferConsumer.front (CircularBufferProducer.push (CircularBuffer.new Int 2) 7) = some 7 :=
  ⟨(single_push (by decide) 7).2.2.2.1 (by decide), (single_push (by decide) 7).2.2.2.2⟩

/-- Claim C9: push modifies only the slot at the write cursor and the write
cursor itself, leaving head, slot count, both claim flags and every other
storage slot unchanged; pop modifies only the read cursor, leaving tail, slot
count, both claim flags and the entire storage unchanged.  (The query
operations `size`, `empty`, `filled`, `front` are embedded as pure functions
returning values, exactly because the C++ code only performs loads in
them.) -/
theorem frame_effects (b : CircularBuffer Int) (x : Int) :
    ((CircularBufferProducer.push b x).head = b.head ∧
     (CircularBufferProducer.push b x).size = b.size ∧
     (CircularBufferProducer.push b x).has_producer = b.has_producer ∧
     (CircularBufferProducer.push b x).has_consumer = b.has_consumer ∧
     (CircularBufferProducer.push b x).data.length = b.data.length ∧
     ∀ i : Nat, i ≠ b.tail.toNat →
       (CircularBufferProducer.push b x).data[i]? = b.data[i]?) ∧
    ((CircularBufferConsumer.pop b).2.tail = b.tail ∧
     (CircularBufferConsumer.pop b).2.size = b.size ∧
     (CircularBufferConsumer.pop b).2.has_producer = b.has_producer ∧
     (CircularBufferConsumer.pop b).2.has_consumer = b.has_consumer ∧
     (CircularBufferConsumer.pop b).2.data = b.data) := by
  refine ⟨⟨rfl, rfl, rfl, rfl, by rw [push_data, List.length_set], ?_⟩,
    rfl, rfl, rfl, rfl, rfl⟩
  intro i hi
  rw [push_data]
  exact List.getElem?_set_ne (Ne.symm hi)

/-- Witness for C9: a slot other than the one at the write cursor is
untouched by push. -/
theorem frame_effects_witness :
    (CircularBufferProducer.push (CircularBuffer.new Int 2) 9).data[1]? =
      (CircularBuffer.new Int 2).data[1]? :=
  (frame_effects (CircularBuffer.new Int 2) 9).1.2.2.2.2.2 1 (by decide)

/-- On a well-formed non-empty state, pop decrements the occupancy by exactly
one, through either the wrapping or the non-wrapping branch. -/
lemma size_pop {T : Type} [Inhabited T] {C : Int} (hC : 1 ≤ C)
    {b : CircularBuffer T} (h : Inv C b) (hne : b.head ≠ b.tail) :
    CircularBufferConsumer.size (CircularBufferConsumer.pop b).2 =
      CircularBufferConsumer.size b - 1 := by
  obtain ⟨hs, hh0, hh1, ht0, ht1, _⟩ := h
  by_cases hmax : b.head = C
  · have hph : (CircularBufferConsumer.pop b).2.head = 0 := by
      rw [pop_head, hmax, hs, Int.tmod_self]
    have h1 : CircularBufferConsumer.size (CircularBufferConsumer.pop b).2 = b.tail := by
      rw [size_formula_ge (by rw [pop_tail, hph]; omega), pop_tail, hph]
      ring
    have h2 : CircularBufferConsumer.size b = b.tail + 1 := by
      rw [size_formula_lt (by omega), hs]
      omega
    omega
  · have hph : (CircularBufferConsumer.pop b).2.head = b.head + 1 := by
      rw [pop_head, hs]
      exact Int.tmod_eq_of_lt (by omega) (by omega)
    by_cases hge : b.tail ≥ b.head
    · have h1 : CircularBufferConsumer.size (CircularBufferConsumer.pop b).2
          = b.tail - (b.head + 1) := by
        rw [size_formula_ge (by rw [pop_tail, hph]; omega), pop_tail, hph]
      have h2 : CircularBufferConsumer.size b = b.tail - b.head :=
        size_formula_ge hge
      omega
    · have h1 : CircularBufferConsumer.size (CircularBufferConsumer.pop b).2
          = b.tail + b.size - (b.head + 1) := by
        rw [size_formula_lt (by rw [pop_tail, hph]; omega), pop_tail, hph,
          pop_size_field]
      have h2 : CircularBufferConsumer.size b = b.tail + b.size - b.head :=
        size_formula_lt hge
      omega

/-- Claim C6: on every reachable non-empty state, pop decreases the occupancy
by exactly 1, and a subsequent front no longer returns the popped value unless
that value is (still or again) among the buffer contents. -/
theorem pop_consumes_once {C : Int} (hC : 1 ≤ C) {b : CircularBuffer Int}
    (hb : Reachable C b) (hne : CircularBufferConsumer.empty b = false) :
    CircularBufferConsumer.size (CircularBufferConsumer.pop b).2 =
      CircularBufferConsumer.size b - 1 ∧
    ((CircularBufferConsumer.pop b).1 ∉ contents (CircularBufferConsumer.pop b).2 →
      CircularBufferConsumer.front (CircularBufferConsumer.pop b).2 ≠
        some (CircularBufferConsumer.pop b).1) := by
  have hinv := reachable_inv hC hb
  have hne' : b.head ≠ b.tail := (empty_false_iff hinv).1 hne
  refine ⟨size_pop hC hinv hne', ?_⟩
  intro hnotin hfront
  have hinv' : Inv C (CircularBufferConsumer.pop b).2 :=
    reachable_inv hC (Reachable.pop b hb hne)
  exact hnotin (front_mem_contents hinv' hfront)

/-- Witness for C6 at `C = 2` after one push of 5. -/
theorem pop_consumes_once_witness :
    CircularBufferConsumer.size
        (CircularBufferConsumer.pop
          (CircularBufferProducer.push (CircularBuffer.new Int 2) 5)).2 =
      CircularBufferConsumer.size
        (CircularBufferProducer.push (CircularBuffer.new Int 2) 5) - 1 ∧
    CircularBufferConsumer.front
        (CircularBufferConsumer.pop
          (CircularBufferProducer.push (CircularBuffer.new Int 2) 5)).2 ≠
      some (CircularBufferConsumer.pop
        (CircularBufferProducer.push (CircularBuffer.new Int 2) 5)).1 := by
  have h := pop_consumes_once (C := 2) (by decide)
    (Reachable.push _ 5 Reachable.new (by decide)) (by decide)
  exact ⟨h.1, h.2 (by decide)⟩

/-- Claim C7: on every reachable state, front returns none exactly on the
empty cursor configuration (`head = tail`) and otherwise returns the slot at
the read cursor, which is the oldest unconsumed item (the first logical
content); being a pure query it advances no cursor and changes no state. -/
theorem front_spec {C : Int} (hC : 1 ≤ C) {b : CircularBuffer Int}
    (hb : Reachable C b) :
    (b.head = b.tail → CircularBufferConsumer.front b = none) ∧
    (b.head ≠ b.tail →
      CircularBufferConsumer.front b = b.data[b.head.toNat]? ∧
      CircularBufferConsumer.front b = (contents b)[0]?) := by
  obtain ⟨hs, hh0, hh1, ht0, ht1, hd⟩ := reachable_inv hC hb
  constructor
  · intro he
    unfold CircularBufferConsumer.front
    rw [if_pos (by simp [he])]
  · intro hne
    have hlt : b.head.toNat < b.data.length := by omega
    have h1 : CircularBufferConsumer.front b = b.data[b.head.toNat]? := by
      unfold CircularBufferConsumer.front
      rw [if_neg (by simp [hne]), List.getD_eq_getElem?_getD,
        List.getElem?_eq_getElem hlt]
      rfl
    exact ⟨h1, by rw [h1, contents_zero ⟨hs, hh0, hh1, ht0, ht1, hd⟩ hne]⟩

/-- Witness for C7 at `C = 2` after one push of 5. -/
theorem front_spec_witness :
    CircularBufferConsumer.front (CircularBufferProducer.push (CircularBuffer.new Int 2) 5) =
      (contents (CircularBufferProducer.push (CircularBuffer.new Int 2) 5))[0]? :=
  ((front_spec (by decide) (Reachable.push _ 5 Reachable.new (by decide))).2
    (by decide)).2

/-- Counterexample to C2: the constructor performs no capacity check.  With
requested capacity 0 — a non-positive capacity — construction is not
rejected: it yields a fully initialised one-slot buffer with both cursors 0
and both claim flags unclaimed, on which the queries operate (it reports
empty, and — the capacity-0 degeneracy — also filled). -/
theorem construction_zero_capacity_not_rejected :
    (CircularBuffer.new Int 0).size = 1 ∧
    (CircularBuffer.new Int 0).data.length = 1 ∧
    (CircularBuffer.new Int 0).head = 0 ∧
    (CircularBuffer.new Int 0).tail = 0 ∧
    (CircularBuffer.new Int 0).has_producer = false ∧
    (CircularBuffer.new Int 0).has_consumer = false ∧
    CircularBufferConsumer.empty (CircularBuffer.new Int 0) = true ∧
    CircularBufferProducer.filled (CircularBuffer.new Int 0) = true := by
  decide

/-- Claim C2 (amended): the constructor never validates its argument; for
every requested capacity `q ≥ 0` — including the non-positive `q = 0` — it
allocates `q + 1` default-initialised slots, sets both cursors to 0 and both
claim flags to unclaimed. -/
theorem construction_initialises {q : Int} (h : 0 ≤ q) :
    (CircularBuffer.new Int q).size = q + 1 ∧
    ((CircularBuffer.new Int q).data.length : Int) = q + 1 ∧
    (∀ i : Nat, i < (CircularBuffer.new Int q).data.length →
      (CircularBuffer.new Int q).data[i]? = some default) ∧
    (CircularBuffer.new Int q).head = 0 ∧
    (CircularBuffer.new Int q).tail = 0 ∧
    (CircularBuffer.new Int q).has_producer = false ∧
    (CircularBuffer.new Int q).has_consumer = false := by
  refine ⟨rfl, ?_, ?_, rfl, rfl, rfl, rfl⟩
  · simp only [CircularBuffer.new, List.length_replicate]
    omega
  · intro i hi
    simp only [CircularBuffer.new, List.length_replicate] at hi ⊢
    rw [List.getElem?_replicate, if_pos hi]

/-- Witness for the amended C2 at `q = 5`. -/
theorem construction_initialises_witness :
    (0 : Int) ≤ 5 ∧ (CircularBuffer.new Int 5).size = 5 + 1 ∧
    (CircularBuffer.new Int 5).data[2]? = some 0 :=
  ⟨by decide, (construction_initialises (by decide)).1,
   (construction_initialises (by decide)).2.2.1 2 (by decide)⟩

end CircularBufferSpec
